import Mathlib

/-!
Verification development for the km-gen composable value-generation library.

The library (src/lib.rs, src/random.rs) provides a `Generator<T>` trait with
`try_generate(&mut self) -> Option<T>` and a family of generators:
`Constant`, `DefaultOr`, `UniformRange`, `UniformCollection`, `RandomSwitch`
and `RandomFlags`.

Shallow embedding conventions:
- A stateful generator becomes a function from its state to the produced
  optional value paired with the updated state.
- The thread-local random source is an external collaborator; each of its
  operations is modelled by an explicit argument (a sampling function, an
  index-choice function, or a drawn boolean) together with a contract
  predicate stating the guarantee the source provides.
- The `f64` probabilities are modelled as rationals; the source only ever
  compares them against the literals 0 and 1, and those comparisons agree
  with the rational ones on every representable float.
- A `bitflags` value is modelled by the natural number of its underlying
  bits; the fixed flag set of the type is a list of flag bit masks plus the
  bit width of the underlying integer type.
-/

namespace KmGen

/-- A generator with internal state `σ` producing values of type `α`: the
Rust trait method `try_generate(&mut self) -> Option<T>` becomes a function
from the current state to the optional value and the updated state. -/
def GenFun (σ α : Type) := σ → Option α × σ

/-- Rust `Constant<T>` (src/lib.rs): stores one value. -/
structure Constant (α : Type) where
  value : α

/-- Rust `Constant::new`. -/
def Constant.new (value : α) : Constant α := ⟨value⟩

/-- Rust `Constant::set`. -/
def Constant.set (_c : Constant α) (value : α) : Constant α := ⟨value⟩

/-- Rust `Constant::try_generate`: `Some(self.0.clone())`. -/
def Constant.try_generate (c : Constant α) : Option α × Constant α :=
  (some c.value, c)

/-- Rust `DefaultOr<T, G>` (src/lib.rs): a default value and the state of the
wrapped inner generator. -/
structure DefaultOr (α σ : Type) where
  default : α
  inner : σ

/-- Rust `DefaultOr::new`. -/
def DefaultOr.new (default : α) (inner : σ) : DefaultOr α σ := ⟨default, inner⟩

/-- Rust `DefaultOr::try_generate`:
`self.1.try_generate().or(Some(self.0.clone()))`. -/
def DefaultOr.try_generate (d : DefaultOr α σ) (G : GenFun σ α) :
    Option α × DefaultOr α σ :=
  let r := G d.inner
  (r.1.or (some d.default), { d with inner := r.2 })

/-- Rust `UniformRange<T>` (src/random.rs): a closed lower bound `lb` and an
open upper bound `ub`. The RNG handle field carries no mathematical content
and is modelled by passing the sampling function at generation time. -/
structure UniformRange (α : Type) where
  lb : α
  ub : α

/-- Rust `UniformRange::new`. -/
def UniformRange.new (lb ub : α) : UniformRange α := ⟨lb, ub⟩

/-- Contract of the external random source operation `rng.gen_range(lb..ub)`
(spec section 6): a uniform sample over a nonempty half-open interval lies in
`[lb, ub)`. -/
def SampleContract [LT α] [LE α] (sample : α → α → α) : Prop :=
  ∀ lb ub : α, lb < ub → lb ≤ sample lb ub ∧ sample lb ub < ub

/-- Rust `UniformRange::try_generate`: if `self.lb < self.ub` return
`Some(self.rng.gen_range(self.lb.clone()..self.ub.clone()))`, else `None`. -/
def UniformRange.try_generate [LinearOrder α] (r : UniformRange α)
    (sample : α → α → α) : Option α :=
  if r.lb < r.ub then some (sample r.lb r.ub) else none

/-- Modelled from the spec: `set_range(lb, rb)` does not appear in
src/random.rs (the `UniformRange` impl there has only `new` and
`try_generate`); spec section 4.4 says it replaces both bounds atomically.
In the single-threaded shallow embedding that atomic update is one total
function replacing both fields of the state. -/
def UniformRange.set_range (r : UniformRange α) (lb ub : α) : UniformRange α :=
  { r with lb := lb, ub := ub }

/-- Rust `UniformCollection<T>` (src/random.rs): the mutable pool of values;
the RNG handle is modelled at generation time. -/
structure UniformCollection (α : Type) where
  values : List α

/-- Rust `UniformCollection::new`. -/
def UniformCollection.new (values : List α) : UniformCollection α := ⟨values⟩

/-- Rust `UniformCollection::is_empty`: `self.values.is_empty()`. -/
def UniformCollection.is_empty (c : UniformCollection α) : Bool :=
  c.values.isEmpty

/-- Contract of the external random source operation `rng.gen_range(0..n)`
used for index selection: the chosen index is in `[0, n)` whenever the range
is nonempty. -/
def ChooseContract (choose : Nat → Nat) : Prop :=
  ∀ n, 0 < n → choose n < n

/-- Rust `UniformCollection::try_generate`: `None` on an empty pool,
otherwise a clone of the element at a randomly chosen index; the `&mut self`
state is returned unchanged. -/
def UniformCollection.try_generate (c : UniformCollection α)
    (choose : Nat → Nat) : Option α × UniformCollection α :=
  if c.values.isEmpty then (none, c)
  else (c.values[choose c.values.length]?, c)

/-- Delete the first element equal to `v`, if any (helper for the
spec-modelled `consume`). -/
def removeFirst [DecidableEq α] : List α → α → List α
  | [], _ => []
  | x :: xs, v => if x = v then xs else x :: removeFirst xs v

/-- Modelled from the spec: `add` does not appear in src/random.rs (the
`UniformCollection` impl there has only `new`, `is_empty` and
`try_generate`); spec section 4.5 says `add(value)` appends to the pool with
no uniqueness constraint. -/
def UniformCollection.add (c : UniformCollection α) (value : α) :
    UniformCollection α :=
  ⟨c.values ++ [value]⟩

/-- Modelled from the spec: `consume` does not appear in src/random.rs; spec
section 4.5 says it scans the pool for the first element equal to `value`,
deletes exactly that occurrence if found, and does nothing (not a failure)
otherwise. -/
def UniformCollection.consume [DecidableEq α] (c : UniformCollection α)
    (value : α) : UniformCollection α :=
  ⟨removeFirst c.values value⟩

/-- Modelled from the spec: `remove` names the same operation as `consume`
(spec section 4.5 treats `consume(value)`/`remove(value)` as one
operation). -/
def UniformCollection.remove [DecidableEq α] (c : UniformCollection α)
    (value : α) : UniformCollection α :=
  c.consume value

lemma removeFirst_eq_erase [DecidableEq α] (l : List α) (v : α) :
    removeFirst l v = l.erase v := by
  induction l with
  | nil => rfl
  | cons x xs ih =>
      by_cases h : x = v
      · simp [removeFirst, h, List.erase_cons]
      · simp [removeFirst, h, List.erase_cons, ih]

/-- C3: for every UniformRange generator, if `lb < ub` then `try_generate`
returns `Some x` with `lb ≤ x < ub` (given the random source contract for
`gen_range`), and if `ub ≤ lb` (equal or inverted bounds) it returns `None`
(a defined failure, no clamping). -/
theorem C3_uniform_range_semantics (α : Type) [LinearOrder α]
    (r : UniformRange α) (sample : α → α → α) (hs : SampleContract sample) :
    (r.lb < r.ub →
      ∃ x, r.try_generate sample = some x ∧ r.lb ≤ x ∧ x < r.ub) ∧
    (r.ub ≤ r.lb → r.try_generate sample = none) := by
  constructor
  · intro h
    refine ⟨sample r.lb r.ub, ?_, (hs r.lb r.ub h).1, (hs r.lb r.ub h).2⟩
    simp [UniformRange.try_generate, h]
  · intro h
    simp [UniformRange.try_generate, not_lt.mpr h]

theorem C3_uniform_range_semantics_witness :
    ((UniformRange.new (0 : ℤ) 5).lb < (UniformRange.new (0 : ℤ) 5).ub →
      ∃ x, (UniformRange.new (0 : ℤ) 5).try_generate (fun lb _ => lb) = some x ∧
        (UniformRange.new (0 : ℤ) 5).lb ≤ x ∧ x < (UniformRange.new (0 : ℤ) 5).ub) ∧
    ((UniformRange.new (0 : ℤ) 5).ub ≤ (UniformRange.new (0 : ℤ) 5).lb →
      (UniformRange.new (0 : ℤ) 5).try_generate (fun lb _ => lb) = none) :=
  C3_uniform_range_semantics ℤ (UniformRange.new 0 5) (fun lb _ => lb)
    (fun _ _ h => ⟨le_refl _, h⟩)

/-- C9: the (spec-modelled) `set_range` replaces both bounds in one step —
the updated state is exactly `new lb ub`, so no generation call can observe
one new bound paired with a stale one — and subsequent sampling immediately
uses the new bounds. -/
theorem C9_set_range_atomic (α : Type) [LinearOrder α] (r : UniformRange α)
    (lb ub : α) (sample : α → α → α) (hs : SampleContract sample) :
    (r.set_range lb ub).lb = lb ∧ (r.set_range lb ub).ub = ub ∧
    (r.set_range lb ub).try_generate sample =
      (UniformRange.new lb ub).try_generate sample ∧
    (lb < ub → ∃ x, (r.set_range lb ub).try_generate sample = some x ∧
      lb ≤ x ∧ x < ub) := by
  refine ⟨rfl, rfl, rfl, ?_⟩
  intro h
  refine ⟨sample lb ub, ?_, (hs lb ub h).1, (hs lb ub h).2⟩
  simp [UniformRange.try_generate, UniformRange.set_range, h]

theorem C9_set_range_atomic_witness :
    ((UniformRange.new (3 : ℤ) 4).set_range 0 5).lb = 0 ∧
    ((UniformRange.new (3 : ℤ) 4).set_range 0 5).ub = 5 ∧
    ((UniformRange.new (3 : ℤ) 4).set_range 0 5).try_generate (fun lb _ => lb) =
      (UniformRange.new (0 : ℤ) 5).try_generate (fun lb _ => lb) ∧
    ((0 : ℤ) < 5 →
      ∃ x, ((UniformRange.new (3 : ℤ) 4).set_range 0 5).try_generate
        (fun lb _ => lb) = some x ∧ (0 : ℤ) ≤ x ∧ x < 5) :=
  C9_set_range_atomic ℤ (UniformRange.new 3 4) 0 5 (fun lb _ => lb)
    (fun _ _ h => ⟨le_refl _, h⟩)

/-- C6: UniformCollection generation returns `None` exactly when the pool is
empty; on a nonempty pool it returns a copy of an element currently in the
pool (given the index contract for `gen_range(0..len)`), and the pool state
is unmodified by generation. -/
theorem C6_collection_generate (α : Type) (c : UniformCollection α)
    (choose : Nat → Nat) (hc : ChooseContract choose) :
    ((c.try_generate choose).1 = none ↔ c.values = []) ∧
    (∀ x, (c.try_generate choose).1 = some x → x ∈ c.values) ∧
    (c.try_generate choose).2 = c := by
  by_cases h : c.values.isEmpty
  · have hv : c.values = [] := List.isEmpty_iff.mp h
    simp [UniformCollection.try_generate, h, hv]
  · have hv : c.values ≠ [] := fun he => h (by simp [he])
    have hlen : 0 < c.values.length := List.length_pos.mpr hv
    have hidx : choose c.values.length < c.values.length := hc _ hlen
    refine ⟨?_, ?_, ?_⟩
    · simp [UniformCollection.try_generate, h, List.getElem?_eq_getElem hidx, hv]
    · intro x hx
      simp only [UniformCollection.try_generate, if_neg h] at hx
      rw [List.getElem?_eq_getElem hidx, Option.some.injEq] at hx
      exact hx ▸ List.getElem_mem hidx
    · simp [UniformCollection.try_generate, h]

theorem C6_collection_generate_witness :
    (((UniformCollection.new [1, 2, 3]).try_generate (fun _ => 0)).1 = none ↔
      (UniformCollection.new [1, 2, 3]).values = []) ∧
    (∀ x, ((UniformCollection.new [1, 2, 3]).try_generate (fun _ => 0)).1 = some x →
      x ∈ (UniformCollection.new [1, 2, 3]).values) ∧
    ((UniformCollection.new [1, 2, 3]).try_generate (fun _ => 0)).2 =
      UniformCollection.new [1, 2, 3] :=
  C6_collection_generate Nat (UniformCollection.new [1, 2, 3]) (fun _ => 0)
    (fun _ h => h)

/-- C7: DefaultOr never fails — `try_generate` always returns `Some`; when
the inner generator succeeds with `v` the result is `v` (the default is not
consulted), and when the inner generator fails the result is a copy of the
stored default. -/
theorem C7_default_or_total (α σ : Type) (d : DefaultOr α σ) (G : GenFun σ α) :
    (∃ v, (d.try_generate G).1 = some v) ∧
    (∀ v s, G d.inner = (some v, s) → (d.try_generate G).1 = some v) ∧
    (∀ s, G d.inner = (none, s) → (d.try_generate G).1 = some d.default) := by
  refine ⟨?_, ?_, ?_⟩
  · rcases h : G d.inner with ⟨r, s⟩
    cases r with
    | none => exact ⟨d.default, by simp [DefaultOr.try_generate, h]⟩
    | some v => exact ⟨v, by simp [DefaultOr.try_generate, h]⟩
  · intro v s h
    simp [DefaultOr.try_generate, h]
  · intro s h
    simp [DefaultOr.try_generate, h]

theorem C7_default_or_total_witness :
    (∃ v, ((DefaultOr.new 7 ()).try_generate (fun s => (none, s))).1 = some v) ∧
    (∀ v s, (fun s => ((none : Option Nat), s)) (DefaultOr.new 7 ()).inner = (some v, s) →
      ((DefaultOr.new 7 ()).try_generate (fun s => (none, s))).1 = some v) ∧
    (∀ s, (fun s => ((none : Option Nat), s)) (DefaultOr.new 7 ()).inner = (none, s) →
      ((DefaultOr.new 7 ()).try_generate (fun s => (none, s))).1 =
        some (DefaultOr.new 7 ()).default) :=
  C7_default_or_total Nat Unit (DefaultOr.new 7 ()) (fun s => (none, s))

/-- C2: the spec-modelled pool mutations — `add` appends (length grows by
exactly one, no deduplication), `remove` is the same operation as `consume`,
and `consume` deletes exactly the first occurrence equal to the argument
(the pool shrinks by one when the value is present) and is a no-op when the
value is absent. -/
theorem C2_pool_mutation (α : Type) [DecidableEq α] (c : UniformCollection α)
    (v : α) :
    (c.add v).values = c.values ++ [v] ∧
    (c.add v).values.length = c.values.length + 1 ∧
    c.remove v = c.consume v ∧
    (c.consume v).values = c.values.erase v ∧
    (v ∈ c.values → (c.consume v).values.length + 1 = c.values.length) ∧
    (v ∉ c.values → (c.consume v).values = c.values) := by
  have herase : (c.consume v).values = c.values.erase v :=
    removeFirst_eq_erase c.values v
  refine ⟨rfl, by simp [UniformCollection.add], rfl, herase, ?_, ?_⟩
  · intro hmem
    rw [herase, List.length_erase_of_mem hmem]
    exact Nat.succ_pred_eq_of_pos (List.length_pos.mpr (by
      intro he; rw [he] at hmem; exact absurd hmem (List.not_mem_nil v)))
  · intro hmem
    rw [herase, List.erase_of_not_mem hmem]

theorem C2_pool_mutation_witness :
    ((UniformCollection.new [1, 2, 2, 3]).add 2).values = [1, 2, 2, 3] ++ [2] ∧
    ((UniformCollection.new [1, 2, 2, 3]).add 2).values.length =
      (UniformCollection.new [1, 2, 2, 3]).values.length + 1 ∧
    (UniformCollection.new [1, 2, 2, 3]).remove 2 =
      (UniformCollection.new [1, 2, 2, 3]).consume 2 ∧
    ((UniformCollection.new [1, 2, 2, 3]).consume 2).values =
      (UniformCollection.new [1, 2, 2, 3]).values.erase 2 ∧
    (2 ∈ (UniformCollection.new [1, 2, 2, 3]).values →
      ((UniformCollection.new [1, 2, 2, 3]).consume 2).values.length + 1 =
        (UniformCollection.new [1, 2, 2, 3]).values.length) ∧
    (2 ∉ (UniformCollection.new [1, 2, 2, 3]).values →
      ((UniformCollection.new [1, 2, 2, 3]).consume 2).values =
        (UniformCollection.new [1, 2, 2, 3]).values) :=
  C2_pool_mutation Nat (UniformCollection.new [1, 2, 2, 3]) 2

/-- Rust `RandomSwitch<G1, G2>` (src/random.rs): two inner generator states
and the selection probability. -/
structure RandomSwitch (σ1 σ2 : Type) where
  gen1 : σ1
  gen2 : σ2
  prob : ℚ

/-- Rust `RandomSwitch::set_g1_prob`: clamp the probability into `[0, 1]`
before storing it. -/
def RandomSwitch.set_g1_prob (s : RandomSwitch σ1 σ2) (prob : ℚ) :
    RandomSwitch σ1 σ2 :=
  if prob < 0 then { s with prob := 0 }
  else if prob > 1 then { s with prob := 1 }
  else { s with prob := prob }

/-- Rust `RandomSwitch::new`: stores the fields, then runs `set_g1_prob` on
the given probability. -/
def RandomSwitch.new (gen1 : σ1) (gen2 : σ2) (prob : ℚ) :
    RandomSwitch σ1 σ2 :=
  RandomSwitch.set_g1_prob { gen1 := gen1, gen2 := gen2, prob := prob } prob

/-- Contract of the external random source operation `rng.gen_bool(p)` (spec
section 6): a boolean that is true with probability `p`, hence surely true
at `p = 1` and surely false at `p = 0`. -/
def GenBoolContract (p : ℚ) (b : Bool) : Prop :=
  (p = 1 → b = true) ∧ (p = 0 → b = false)

/-- Rust `RandomSwitch::try_generate`: draw `gen_bool(self.prob)` (the
argument `coin`); on true delegate to `gen1`, on false delegate to `gen2`,
returning that result unchanged. -/
def RandomSwitch.try_generate (s : RandomSwitch σ1 σ2) (G1 : GenFun σ1 α)
    (G2 : GenFun σ2 α) (coin : Bool) : Option α × RandomSwitch σ1 σ2 :=
  if coin then
    let r := G1 s.gen1
    (r.1, { s with gen1 := r.2 })
  else
    let r := G2 s.gen2
    (r.1, { s with gen2 := r.2 })

/-- C8: the switch is a pure selector — on each call exactly one inner
generator is consulted (the result and updated state do not depend on the
other generator, whose state is untouched); with `prob = 1` the selected
generator is always the first and with `prob = 0` always the second (via
the `gen_bool` contract); the selected branch result, failure included, is
returned as is with no fallback to the other branch. -/
theorem C8_switch_pure_selector (α σ1 σ2 : Type) (s : RandomSwitch σ1 σ2)
    (G1 : GenFun σ1 α) (G2 : GenFun σ2 α) (coin : Bool)
    (hb : GenBoolContract s.prob coin) :
    (s.prob = 1 → (s.try_generate G1 G2 coin).1 = (G1 s.gen1).1) ∧
    (s.prob = 0 → (s.try_generate G1 G2 coin).1 = (G2 s.gen2).1) ∧
    (coin = true → (s.try_generate G1 G2 coin).1 = (G1 s.gen1).1 ∧
      (s.try_generate G1 G2 coin).2.gen2 = s.gen2 ∧
      ∀ G2a : GenFun σ2 α,
        s.try_generate G1 G2 coin = s.try_generate G1 G2a coin) ∧
    (coin = false → (s.try_generate G1 G2 coin).1 = (G2 s.gen2).1 ∧
      (s.try_generate G1 G2 coin).2.gen1 = s.gen1 ∧
      ∀ G1a : GenFun σ1 α,
        s.try_generate G1 G2 coin = s.try_generate G1a G2 coin) := by
  refine ⟨?_, ?_, ?_, ?_⟩
  · intro h1
    rw [hb.1 h1]
    simp [RandomSwitch.try_generate]
  · intro h0
    rw [hb.2 h0]
    simp [RandomSwitch.try_generate]
  · intro hc
    subst hc
    exact ⟨rfl, rfl, fun _ => rfl⟩
  · intro hc
    subst hc
    exact ⟨rfl, rfl, fun _ => rfl⟩

theorem C8_switch_pure_selector_witness :
    ((RandomSwitch.new () () 1).prob = 1 →
      ((RandomSwitch.new () () 1).try_generate (fun s => (some 1, s))
        (fun s => ((none : Option Nat), s)) true).1 = ((fun s => (some 1, s)) ()).1) ∧
    ((RandomSwitch.new () () 1).prob = 0 →
      ((RandomSwitch.new () () 1).try_generate (fun s => (some 1, s))
        (fun s => ((none : Option Nat), s)) true).1 =
        ((fun s => ((none : Option Nat), s)) ()).1) ∧
    (true = true →
      ((RandomSwitch.new () () 1).try_generate (fun s => (some 1, s))
        (fun s => ((none : Option Nat), s)) true).1 = ((fun s => (some 1, s)) ()).1 ∧
      ((RandomSwitch.new () () 1).try_generate (fun s => (some 1, s))
        (fun s => ((none : Option Nat), s)) true).2.gen2 = () ∧
      ∀ G2a : GenFun Unit Nat,
        (RandomSwitch.new () () 1).try_generate (fun s => (some 1, s))
          (fun s => ((none : Option Nat), s)) true =
        (RandomSwitch.new () () 1).try_generate (fun s => (some 1, s)) G2a true) ∧
    (true = false →
      ((RandomSwitch.new () () 1).try_generate (fun s => (some 1, s))
        (fun s => ((none : Option Nat), s)) true).1 =
        ((fun s => ((none : Option Nat), s)) ()).1 ∧
      ((RandomSwitch.new () () 1).try_generate (fun s => (some 1, s))
        (fun s => ((none : Option Nat), s)) true).2.gen1 = () ∧
      ∀ G1a : GenFun Unit Nat,
        (RandomSwitch.new () () 1).try_generate (fun s => (some 1, s))
          (fun s => ((none : Option Nat), s)) true =
        (RandomSwitch.new () () 1).try_generate G1a
          (fun s => ((none : Option Nat), s)) true) :=
  C8_switch_pure_selector Nat Unit Unit (RandomSwitch.new () () 1)
    (fun s => (some 1, s)) (fun s => (none, s)) true
    ⟨fun _ => rfl, fun h => absurd h (by norm_num [RandomSwitch.new, RandomSwitch.set_g1_prob])⟩

/-- The statically known flag set of a `bitflags` type `T`: the bit width of
the underlying integer type `T::Bits` and the `bits()` of each named flag in
declaration order (`T::FLAGS`). -/
structure FlagType where
  width : Nat
  flags : List Nat

/-- The union of the bits of all defined flags (`T::all().bits()`), the mask
that `T::from_bits_truncate` keeps. -/
def FlagType.known (F : FlagType) : Nat :=
  F.flags.foldl (fun a b => a ||| b) 0

/-- Rust `T::from_bits_truncate`: keep only the bits of defined flags. -/
def FlagType.truncate (F : FlagType) (v : Nat) : Nat := v &&& F.known

/-- Well-formedness of the flag type: all defined flag bits fit in the bit
width of the underlying integer type (true by construction in Rust). -/
def FlagType.WF (F : FlagType) : Prop := F.known < 2 ^ F.width

instance (F : FlagType) : Decidable F.WF :=
  inferInstanceAs (Decidable (F.known < 2 ^ F.width))

/-- Fixed-width bitwise complement: Rust `!x` on the `w`-bit unsigned
underlying integer type. -/
def notW (w x : Nat) : Nat := (2 ^ w - 1) ^^^ x

/-- Rust `RandomFlags<T>` (src/random.rs): selection probability, inclusion
mask, exclusion mask and the ordered constraint list; the masks and the
constraint entries are the `bits()` of flag values of `T`. -/
structure RandomFlags where
  prob : ℚ
  inclusion : Nat
  exclusion : Nat
  constraints : List (Nat × Nat)

/-- Rust `RandomFlags::new`: stores `prob` exactly as given (the source does
not clamp here), with `T::empty()` masks and no constraints. -/
def RandomFlags.new (prob : ℚ) : RandomFlags :=
  { prob := prob, inclusion := 0, exclusion := 0, constraints := [] }

/-- Rust `RandomFlags::set_prob`: clamp the probability into `[0, 1]`. -/
def RandomFlags.set_prob (s : RandomFlags) (prob : ℚ) : RandomFlags :=
  if prob < 0 then { s with prob := 0 }
  else if prob > 1 then { s with prob := 1 }
  else { s with prob := prob }

/-- Rust `RandomFlags::include`: OR the flags into the inclusion mask through
`from_bits_truncate` (named `include_flags` here because `include` is a Lean
keyword). -/
def RandomFlags.include_flags (s : RandomFlags) (F : FlagType) (flags : Nat) :
    RandomFlags :=
  { s with inclusion := F.truncate (s.inclusion ||| flags) }

/-- Rust `RandomFlags::exclude`: OR the flags into the exclusion mask through
`from_bits_truncate`. -/
def RandomFlags.exclude (s : RandomFlags) (F : FlagType) (flags : Nat) :
    RandomFlags :=
  { s with exclusion := F.truncate (s.exclusion ||| flags) }

/-- Rust `RandomFlags::constraint`: push `(flag1, flag2)` onto the constraint
list. -/
def RandomFlags.constraint (s : RandomFlags) (flag1 flag2 : Nat) : RandomFlags :=
  { s with constraints := s.constraints ++ [(flag1, flag2)] }

/-- Stage 1 of `RandomFlags::try_generate`: for each flag of `T::FLAGS`, OR
its bits into the working value when the corresponding `gen_bool(prob)` draw
(the matching entry of `coins`) came out true. -/
def freeStage (flags : List Nat) (coins : List Bool) : Nat :=
  (flags.zip coins).foldl (fun value fc => if fc.2 then value ||| fc.1 else value) 0

/-- Stage 2 of `RandomFlags::try_generate`: one pass over the constraints in
registration order; `(value | flag1) == value` tests that every bit of
`flag1` is already set, and on success `flag2` is ORed in. -/
def applyConstraints (cs : List (Nat × Nat)) (v : Nat) : Nat :=
  cs.foldl (fun value c => if value ||| c.1 = value then value ||| c.2 else value) v

/-- Rust `RandomFlags::try_generate`: free stage, constraint pass, clear the
exclusion mask (`value & !exclusion`), set the inclusion mask
(`value | inclusion`), then `from_bits_truncate`; always `Some`. -/
def RandomFlags.try_generate (s : RandomFlags) (F : FlagType)
    (coins : List Bool) : Option Nat :=
  some (F.truncate ((applyConstraints s.constraints (freeStage F.flags coins) &&&
    notW F.width s.exclusion) ||| s.inclusion))

/-- The containment test the source uses: `(value | flags) == value` holds
exactly when every bit of `flags` is set in `value`. -/
def hasFlags (value flags : Nat) : Prop := value ||| flags = value

instance (value flags : Nat) : Decidable (hasFlags value flags) :=
  inferInstanceAs (Decidable (value ||| flags = value))

lemma hasFlags_iff (v a : Nat) :
    hasFlags v a ↔ ∀ i, a.testBit i = true → v.testBit i = true := by
  constructor
  · intro h i hi
    have hbit := congrArg (fun x => Nat.testBit x i) h
    simp only [Nat.testBit_or] at hbit
    rw [← hbit, hi, Bool.or_true]
  · intro h
    apply Nat.eq_of_testBit_eq
    intro i
    rw [Nat.testBit_or]
    cases ha : a.testBit i
    · rw [Bool.or_false]
    · rw [h i ha, Bool.true_or]

lemma applyConstraints_cons (c : Nat × Nat) (cs : List (Nat × Nat)) (v : Nat) :
    applyConstraints (c :: cs) v =
      applyConstraints cs (if v ||| c.1 = v then v ||| c.2 else v) := rfl

lemma applyConstraints_mono (cs : List (Nat × Nat)) (v i : Nat)
    (h : v.testBit i = true) : (applyConstraints cs v).testBit i = true := by
  induction cs generalizing v with
  | nil => exact h
  | cons c cs ih =>
      rw [applyConstraints_cons]
      apply ih
      by_cases hc : v ||| c.1 = v
      · rw [if_pos hc, Nat.testBit_or, h, Bool.true_or]
      · rw [if_neg hc]; exact h

lemma applyConstraints_fires (f1 f2 : Nat) :
    ∀ (cs : List (Nat × Nat)) (v : Nat), (f1, f2) ∈ cs →
      (∀ i, f1.testBit i = true → v.testBit i = true) →
      ∀ i, f2.testBit i = true → (applyConstraints cs v).testBit i = true := by
  intro cs
  induction cs with
  | nil => intro v hmem; cases hmem
  | cons c cs ih =>
      intro v hmem h1 i hi
      rw [applyConstraints_cons]
      rcases List.mem_cons.mp hmem with heq | htail
      · have hc1 : c.1 = f1 := by rw [← heq]
        have hc2 : c.2 = f2 := by rw [← heq]
        have hcond : v ||| f1 = v := (hasFlags_iff v f1).mpr h1
        rw [hc1, hc2, if_pos hcond]
        exact applyConstraints_mono cs _ i (by rw [Nat.testBit_or, hi, Bool.or_true])
      · refine ih _ htail ?_ i hi
        intro j hj
        by_cases hc : v ||| c.1 = v
        · rw [if_pos hc, Nat.testBit_or, h1 j hj, Bool.true_or]
        · rw [if_neg hc]; exact h1 j hj

lemma testBit_lt_width {x w i : Nat} (hx : x < 2 ^ w)
    (h : x.testBit i = true) : i < w := by
  by_contra hge
  have hxi : x < 2 ^ i :=
    lt_of_lt_of_le hx (Nat.pow_le_pow_right (by norm_num) (Nat.le_of_not_lt hge))
  rw [Nat.testBit_lt_two_pow hxi] at h
  exact Bool.false_ne_true h

lemma testBit_bounded (x w : Nat) (P : Nat → Prop) (hx : x < 2 ^ w)
    (h : ∀ i, i < w → (x.testBit i = true → P i)) :
    ∀ i, x.testBit i = true → P i := by
  intro i hi
  exact h i (testBit_lt_width hx hi) hi

lemma try_generate_testBit (s : RandomFlags) (F : FlagType) (coins : List Bool)
    (v i : Nat) (hwf : F.WF) (hgen : s.try_generate F coins = some v)
    (hc : (applyConstraints s.constraints (freeStage F.flags coins)).testBit i = true)
    (hex : s.exclusion.testBit i = false) (hk : F.known.testBit i = true) :
    v.testBit i = true := by
  have hv := Option.some.inj hgen
  subst hv
  have hiw : i < F.width := testBit_lt_width hwf hk
  rw [FlagType.truncate, Nat.testBit_and, Nat.testBit_or, Nat.testBit_and,
    notW, Nat.testBit_xor, Nat.testBit_two_pow_sub_one, hc, hex, hk]
  simp [hiw]

/-- C1 (counterexample): the claim as stated fails on the code. With flag set
`{1, 2}` on a 2-bit type, constraint `(1, 2)` registered and flag `2`
excluded, the random draw `[true, false]` yields the value `1`: it contains
`flag1 = 1` but not `flag2 = 2`, because the exclusion stage runs after the
constraint pass and strips the forced `flag2` again. -/
theorem C1_counterexample :
    (1, 2) ∈ (((RandomFlags.new 0).constraint 1 2).exclude ⟨2, [1, 2]⟩ 2).constraints ∧
    (((RandomFlags.new 0).constraint 1 2).exclude ⟨2, [1, 2]⟩ 2).try_generate
      ⟨2, [1, 2]⟩ [true, false] = some 1 ∧
    hasFlags 1 1 ∧ ¬ hasFlags 1 2 := by
  refine ⟨?_, rfl, rfl, ?_⟩
  · simp [RandomFlags.new, RandomFlags.constraint, RandomFlags.exclude]
  · decide

/-- C1 (amended): for every registered constraint `(flag1, flag2)`, if the
working value already contains `flag1` when it leaves the free random stage,
and every bit of `flag2` is a defined flag bit outside the exclusion mask,
then the value returned by `try_generate` contains `flag2`. (Without these
side conditions the implication can fail: the exclusion stage runs after the
constraint pass and can strip `flag2`, and the inclusion stage or a later
constraint can introduce `flag1` after this constraint was already
checked.) -/
theorem C1_constraint_guarantee (s : RandomFlags) (F : FlagType)
    (coins : List Bool) (f1 f2 v : Nat) (hwf : F.WF)
    (hmem : (f1, f2) ∈ s.constraints)
    (hsel : hasFlags (freeStage F.flags coins) f1)
    (hf2 : ∀ i, f2.testBit i = true →
      s.exclusion.testBit i = false ∧ F.known.testBit i = true)
    (hgen : s.try_generate F coins = some v) :
    hasFlags v f2 := by
  rw [hasFlags_iff]
  intro i hi
  exact try_generate_testBit s F coins v i hwf hgen
    (applyConstraints_fires f1 f2 s.constraints _ hmem
      ((hasFlags_iff _ f1).mp hsel) i hi)
    (hf2 i hi).1 (hf2 i hi).2

theorem C1_constraint_guarantee_witness : hasFlags 3 2 :=
  C1_constraint_guarantee ((RandomFlags.new 0).constraint 1 2) ⟨2, [1, 2]⟩
    [true, false] 1 2 3 (by decide) (by decide) (by decide)
    (testBit_bounded 2 2 _ (by decide) (by decide)) rfl

/-- C4: a bit present in both the exclusion and the inclusion masks appears
in every generated value — the inclusion OR runs after the exclusion AND, so
inclusion wins. The hypothesis that every inclusion bit is a defined flag
bit is an invariant of the `include` mutator, which accumulates through
`from_bits_truncate`. -/
theorem C4_inclusion_overrides_exclusion (s : RandomFlags) (F : FlagType)
    (coins : List Bool) (i : Nat) (v : Nat)
    (hinc : ∀ j, s.inclusion.testBit j = true → F.known.testBit j = true)
    (hi : s.inclusion.testBit i = true)
    (_hx : s.exclusion.testBit i = true)
    (hgen : s.try_generate F coins = some v) :
    v.testBit i = true := by
  have hv := Option.some.inj hgen
  subst hv
  rw [FlagType.truncate, Nat.testBit_and, Nat.testBit_or, hi, hinc i hi]
  simp

theorem C4_inclusion_overrides_exclusion_witness :
    (((RandomFlags.new 0).include_flags ⟨2, [1, 2]⟩ 1).exclude ⟨2, [1, 2]⟩ 1).try_generate
      ⟨2, [1, 2]⟩ [false, false] = some 1 ∧
    Nat.testBit 1 0 = true :=
  ⟨rfl, C4_inclusion_overrides_exclusion
    (((RandomFlags.new 0).include_flags ⟨2, [1, 2]⟩ 1).exclude ⟨2, [1, 2]⟩ 1)
    ⟨2, [1, 2]⟩ [false, false] 0 1
    (testBit_bounded _ 2 _ (by decide) (by decide))
    (by decide) (by decide) rfl⟩

/-- C10: a constraint whose `flag1` is the empty flag value fires
unconditionally, since `(value | 0) == value` holds for every working value:
`flag2` is contained in the working value after the constraint pass for every
random draw (in particular the all-false draw that `prob = 0` forces), and
every defined, non-excluded bit of `flag2` survives into the returned
value. -/
theorem C10_empty_flag1_constraint (s : RandomFlags) (F : FlagType)
    (coins : List Bool) (f2 v : Nat) (hwf : F.WF)
    (hmem : ((0 : Nat), f2) ∈ s.constraints)
    (hgen : s.try_generate F coins = some v) :
    hasFlags (applyConstraints s.constraints (freeStage F.flags coins)) f2 ∧
    ∀ i, f2.testBit i = true → s.exclusion.testBit i = false →
      F.known.testBit i = true → v.testBit i = true := by
  have hfire : ∀ i, f2.testBit i = true →
      (applyConstraints s.constraints (freeStage F.flags coins)).testBit i = true :=
    applyConstraints_fires 0 f2 s.constraints _ hmem
      (fun j hj => by rw [Nat.zero_testBit] at hj; cases hj)
  refine ⟨(hasFlags_iff _ _).mpr hfire, ?_⟩
  intro i hi hx hk
  exact try_generate_testBit s F coins v i hwf hgen (hfire i hi) hx hk

theorem C10_empty_flag1_constraint_witness :
    hasFlags (applyConstraints ((RandomFlags.new 0).constraint 0 2).constraints
      (freeStage (FlagType.mk 2 [1, 2]).flags [false, false])) 2 ∧
    ∀ i, Nat.testBit 2 i = true →
      ((RandomFlags.new 0).constraint 0 2).exclusion.testBit i = false →
      (FlagType.known ⟨2, [1, 2]⟩).testBit i = true → Nat.testBit 2 i = true :=
  C10_empty_flag1_constraint ((RandomFlags.new 0).constraint 0 2) ⟨2, [1, 2]⟩
    [false, false] 2 2 (by decide) (by decide) rfl

/-- C5: the claim is right about `RandomSwitch` (both the constructor and
`set_g1_prob` clamp) and about `RandomFlags::set_prob`, but
`RandomFlags::new` stores the probability exactly as given, so after
construction with the out-of-range input 2 the stored probability is 2,
outside `[0, 1]` — a slip in the code: the sibling constructor
`RandomSwitch::new` routes through its clamping setter, and an unclamped
probability makes the later `gen_bool` call panic. -/
theorem C5_stored_probability :
    (RandomFlags.new 2).prob = 2 ∧
    ¬ ((0 : ℚ) ≤ (RandomFlags.new 2).prob ∧ (RandomFlags.new 2).prob ≤ 1) ∧
    ((RandomFlags.new 2).set_prob 2).prob = 1 ∧
    ((RandomFlags.new 2).set_prob (-5)).prob = 0 ∧
    (RandomSwitch.new () () 2).prob = 1 ∧
    ((RandomSwitch.new () () 1).set_g1_prob (-5)).prob = 0 := by
  refine ⟨rfl, ?_, ?_, ?_, ?_, ?_⟩
  · intro h
    norm_num [RandomFlags.new] at h
  · norm_num [RandomFlags.new, RandomFlags.set_prob]
  · norm_num [RandomFlags.new, RandomFlags.set_prob]
  · norm_num [RandomSwitch.new, RandomSwitch.set_g1_prob]
  · norm_num [RandomSwitch.new, RandomSwitch.set_g1_prob]

end KmGen
